import Mathlib

/-!
Shallow embedding of `src/print.rs` (starship's prompt composition and
rendering engine) and proofs about it.

External collaborators (the template parser, the individual module
implementations, configuration loading, ANSI styling, the unicode crates)
are modelled as oracle fields of the context structures or as small
definitions reproducing the documented behaviour of the external crate on
the characters this file uses.  Everything that lives in `src/print.rs`
itself is translated definition by definition.
-/

namespace Starship

/-- A styled output unit.  `Segment` lives in `src/segment.rs` (external to
`src/print.rs`); its internals are irrelevant here, only its identity and
order matter, so it is modelled as a wrapper around its text value. -/
structure Segment where
  text : String
deriving DecidableEq, Repr

/-- A named unit of work producing ordered segments plus a measured
duration.  `Module` lives in `src/module.rs` (external to the file under
study); the fields below are the ones `print.rs` reads.  `duration` is in
nanoseconds, mirroring `std::time::Duration` resolution; `rendered` stands
for the string `ANSIStrings(&module.ansi_strings()).to_string()` produced
by the external styling collaborator. -/
structure Module where
  name : String
  description : String
  segments : List Segment
  duration : Nat
  rendered : String
deriving DecidableEq, Repr

/-- Rust's `Duration::as_millis` for a nanosecond count. -/
def durationMillis (d : Nat) : Nat := d / 1000000

/-- Modelled from the spec: `Module::is_empty` (in `src/module.rs`, not
under `src/`) is "true iff the segment sequence is empty regardless of
duration". -/
def Module.is_empty (m : Module) : Bool := m.segments.isEmpty

/-- A TOML value, as far as `should_add_implicit_custom_module` inspects
one: it calls `.get("disabled")` (table lookup) and `.as_bool()`. -/
inductive Toml where
  | bool : Bool → Toml
  | str : String → Toml
  | table : List (String × Toml) → Toml

/-- Lookup `toml::Value::get(key)`: `Some` of the mapped value for a table that
contains the key, `None` otherwise. -/
def Toml.get : Toml → String → Option Toml
  | .table kvs, key => (kvs.find? (fun kv => kv.1 = key)).map (·.2)
  | _, _ => none

/-- Conversion `toml::Value::as_bool`. -/
def Toml.asBool : Toml → Option Bool
  | .bool b => some b
  | _ => none

/-- The shell dialects distinguished by `print.rs` (`context.shell`). -/
inductive Shell where
  | bash | fish | ion | powershell | tcsh | zsh | unknown
deriving DecidableEq, Repr

/-- The read-only context and the external collaborators that
`handle_module` consults: the per-module disabled flags, the custom module
table, and the black-box module computations `modules::handle` and
`modules::custom::module` (each returns at most one module). -/
structure Context where
  isModuleDisabledInConfig : String → Bool
  isCustomModuleDisabledInConfig : String → Option Bool
  getCustomModules : Option (List (String × Toml))
  handle : String → Option Module
  customModule : String → Option Module

/-- Translation of `should_add_implicit_custom_module` from `src/print.rs`: a configured
custom module is implicitly added by the `custom` wildcard only if it is
not explicitly referenced as `custom.<id>` in the template variable list
and its configuration does not set `disabled = true`. -/
def should_add_implicit_custom_module (custom_module : String) (config : Toml)
    (module_list : List String) : Bool :=
  let explicit_module_name := "custom." ++ custom_module
  let is_explicitly_specified := module_list.contains explicit_module_name
  if is_explicitly_specified then
    false
  else
    let false_value := Toml.bool false
    !((((config.get "disabled").getD false_value).asBool).getD false)

/-- Rust's `module.strip_prefix("custom.")`: `some` of the remainder when
the name starts with `custom.`, `none` otherwise (character-level; UTF-8
byte-level and character-level prefixes of an ASCII literal agree). -/
def stripCustomDot (module : String) : Option String :=
  if module.data.take 7 = "custom.".data then
    some (String.mk (module.data.drop 7))
  else
    none

/-- Translation of `handle_module` from `src/print.rs`.  `allModules` stands for the
external constant `ALL_MODULES` (the full builtin identifier list, defined
in `src/configs`, outside the file under study), passed explicitly. -/
def handle_module (module : String) (allModules : List String) (context : Context)
    (module_list : List String) : List Module :=
  if allModules.contains module then
    -- Write out a module if it isn't disabled
    if !(context.isModuleDisabledInConfig module) then
      (context.handle module).toList
    else
      []
  else if module = "custom" then
    -- Write out all custom modules, except for those that are explicitly set
    match context.getCustomModules with
    | some custom_modules =>
        custom_modules.filterMap (fun p =>
          if should_add_implicit_custom_module p.1 p.2 module_list then
            context.customModule p.1
          else
            none)
    | none => []
  else
    match stripCustomDot module with
    | some id =>
        -- Write out a custom module if it isn't disabled (and it exists...)
        match context.isCustomModuleDisabledInConfig id with
        | some true => []
        | some false => (context.customModule id).toList
        | none => []  -- only a debug log in the source
    | none => []  -- only a debug log in the source

/-- The segment list a single variable position contributes:
`handle_module(..).into_iter().flat_map(|m| m.segments).collect()`. -/
def handleModuleSegments (module : String) (allModules : List String) (context : Context)
    (module_list : List String) : List Segment :=
  (handle_module module allModules context module_list).flatMap (·.segments)

/-! ## The parallel wildcard expansion of `get_prompt`

`get_prompt` expands `$all` with
`PROMPT_ORDER.par_iter().flat_map(..).collect::<Vec<_>>()`.  Rayon's
contract is that the tasks run in an arbitrary completion order while the
collected vector is keyed by each task's original position.  We model this
explicitly: a `schedule` lists task indices in the order the worker pool
finishes them (arbitrary, possibly with repetitions); each completion
writes its result into the slot of its original index; afterwards the
slots are read back in index order and concatenated. -/

/-- Run the completions in `schedule` order, each writing its result into
the slot of its original position. -/
def runSchedule (f : Nat → List Segment) : List Nat → (Nat → Option (List Segment)) →
    (Nat → Option (List Segment))
  | [], slots => slots
  | i :: rest, slots =>
      runSchedule f rest (fun j => if j = i then some (f i) else slots j)

/-- Collect a parallel flat-map: dispatch one task per element of `order`,
let them complete in `schedule` order, then emit the buffered results in
original-position order. -/
def parFlatMapCollect (order : List String) (f : String → List Segment)
    (schedule : List Nat) : List Segment :=
  ((List.range order.length).map
    (fun i =>
      (runSchedule
        (fun i => match order.get? i with
          | some m => f m
          | none => [])
        schedule (fun _ => none) i).getD [])).flatten

/-- The `$all` branch of the variable-to-segments mapper in `get_prompt`
(`src/print.rs` lines 92-101): every builtin of `PROMPT_ORDER` (an
external constant, passed as `promptOrder`) is dispatched concurrently and
the per-module segment lists are collected by original position. -/
def getPromptAllSegments (promptOrder allModules : List String) (context : Context)
    (module_list : List String) (schedule : List Nat) : List Segment :=
  parFlatMapCollect promptOrder
    (fun module => handleModuleSegments module allModules context module_list) schedule

/-- The `$all` branch of `compute_modules` (`src/print.rs` lines 302-306):
the same builtins evaluated strictly sequentially in `PROMPT_ORDER` order,
extending the accumulator one module at a time. -/
def computeModulesAll (promptOrder allModules : List String) (context : Context)
    (module_list : List String) : List Module :=
  promptOrder.flatMap (fun module => handle_module module allModules context module_list)

/-! ## String rendering of `get_prompt` -/

/-- Rust's `str::replace` with a single-`char` pattern: every occurrence of
`c` is replaced by `r`.  (Both `print.rs` call sites use `char` patterns,
for which `replace` is an independent per-character substitution.) -/
def replaceChar (c : Char) (r : List Char) (s : List Char) : List Char :=
  s.flatMap (fun x => if x = c then r else [x])

/-- String-level wrapper for `replaceChar`. -/
def strReplaceChar (s : String) (c : Char) (r : String) : String :=
  String.mk (Starship.replaceChar c r.data s.data)

/-- The tcsh post-processing step of `get_prompt` (`src/print.rs` lines
128-132): `buf.replace('!', "\\!")` then `buf.replace('\n', " \\n")`. -/
def tcshPostprocess (buf : String) : String :=
  strReplaceChar (strReplaceChar buf '!' "\\!") '\n' " \\n"

/-- The inputs of `get_prompt` beyond `handle_module`'s context: the `TERM`
environment variable, the shell dialect, the root config flags, whether
`StringFormatter::new(config.format)` succeeds, and — standing for the
external formatter/styling pipeline (`formatter.parse` plus
`ANSIStrings`) — the fully styled string `rendered` it produces. -/
structure PromptContext where
  termEnv : Option String
  shell : Shell
  add_newline : Bool
  formatParses : Bool
  rendered : String

/-- Translation of `get_prompt` from `src/print.rs`, returning the prompt string together
with the list of error messages logged on the way (`log::error!` calls). -/
def get_prompt (c : PromptContext) : String × List String :=
  -- TERM=dumb check (lines 67-74)
  if c.termEnv = some "dumb" then
    ("Starship disabled due to TERM=dumb > ", ["Under a 'dumb' terminal (TERM=dumb)."])
  else
    -- fish screen-clear workaround (lines 78-80)
    let buf := if c.shell = Shell.fish then "\x1b[J" else ""
    -- format parsing (lines 82-88)
    if !c.formatParses then
      (buf ++ ">", ["Error parsing `format`"])
    else
      -- add_newline, then the styled module strings (lines 121-125)
      let buf := buf ++ (if c.add_newline then "\n" else "") ++ c.rendered
      -- tcsh escaping (lines 127-132)
      let buf := if c.shell = Shell.tcsh then tcshPostprocess buf else buf
      (buf, [])

/-! ## Grapheme-aware display width

`print.rs` composes two external crates: `unicode_segmentation` (grapheme
cluster splitting) and `unicode_width` (`UnicodeWidthChar::width`).  The
two definitions below model those collaborators on the character classes
this repository's strings exercise; `Grapheme::width` and
`width_graphemes` themselves are then translated from `print.rs`. -/

/-- Models `unicode_width::UnicodeWidthChar::width` (external crate): `none`
for control characters, width 0 for combining marks (U+0300–U+036F) and the
zero width joiner U+200D, width 2 for the emoji pictograph blocks
U+1F300–U+1FAFF, width 1 otherwise (the characters used here are narrow). -/
def charWidth (ch : Char) : Option Nat :=
  let n := ch.toNat
  if n < 0x20 ∨ (0x7F ≤ n ∧ n < 0xA0) then none
  else if (0x300 ≤ n ∧ n ≤ 0x36F) ∨ n = 0x200D then some 0
  else if 0x1F300 ≤ n ∧ n ≤ 0x1FAFF then some 2
  else some 1

/-- Is `ch` a cluster-extending character (combining mark or zero width
joiner)?  Part of the model of `unicode_segmentation`. -/
def isGraphemeExtend (ch : Char) : Bool :=
  (0x300 ≤ ch.toNat && ch.toNat ≤ 0x36F) || ch.toNat = 0x200D

/-- Models `unicode_segmentation`'s extended grapheme clustering (external
crate) on the characters used here: a boundary falls between `c` and `d`
unless `d` extends the cluster (UAX #29 GB9: combining mark or ZWJ) or `c`
is a ZWJ joining two pictographs (GB11). -/
def graphemeSplit : List Char → List (List Char)
  | [] => []
  | c :: rest =>
      match graphemeSplit rest with
      | [] => [[c]]
      | [] :: gs => [c] :: gs
      | (d :: g) :: gs =>
          if isGraphemeExtend d || c.toNat = 0x200D then
            (c :: d :: g) :: gs
          else
            [c] :: (d :: g) :: gs

/-- The clusters `s.graphemes(true)` as a list of cluster strings. -/
def stringGraphemes (s : String) : List String :=
  (graphemeSplit s.data).map String.mk

/-- Rust's `Iterator::max().unwrap_or(0)` over a list of `usize`. -/
def listMax (l : List Nat) : Nat := l.foldr Nat.max 0

/-- Translation of `Grapheme::width` from `src/print.rs`: the maximum
`UnicodeWidthChar::width` over the cluster's characters, characters with no
width skipped, 0 for an empty maximum. -/
def graphemeWidth (g : String) : Nat :=
  listMax (g.data.filterMap charWidth)

/-- Translation of `width_graphemes` from `src/print.rs`: the sum of the cluster widths of
the string's grapheme clusters. -/
def width_graphemes (s : String) : Nat :=
  ((stringGraphemes s).map graphemeWidth).sum

/-- Translation of `format_duration` from `src/print.rs`. -/
def format_duration (duration : Nat) : String :=
  let milis := durationMillis duration
  if milis = 0 then "<1ms" else toString milis ++ "ms"

/-- Rust's `" ".repeat(n)`. -/
def spaces (n : Nat) : String := String.mk (List.replicate n ' ')

/-! ## The timings diagnostic renderer -/

/-- The per-module row of `timings` (`struct ModuleTiming`). -/
structure ModuleTiming where
  name : String
  name_len : Nat
  value : String
  duration : Nat
  duration_len : Nat
deriving DecidableEq, Repr

/-- The filter of `timings`: keep a module iff it produced output or its
measured duration is at least one millisecond. -/
def timingsFiltered (ms : List Module) : List Module :=
  ms.filter (fun module => !module.is_empty || durationMillis module.duration > 0)

/-- The row built from a module by `timings`: grapheme-aware name width,
styled value with newlines flattened to the literal `\n`, and the
grapheme-aware width of the formatted duration. -/
def moduleTiming (module : Module) : ModuleTiming :=
  { name := module.name
    name_len := width_graphemes module.name
    value := strReplaceChar module.rendered '\n' "\\n"
    duration := module.duration
    duration_len := width_graphemes (format_duration module.duration) }

/-- Insert a row into an already-sorted row list, before the first row of
strictly smaller duration: the stable descending insertion that realises
Rust's stable `sort_by(|a, b| b.duration.cmp(&a.duration))`. -/
def insertByDurationDesc (x : ModuleTiming) : List ModuleTiming → List ModuleTiming
  | [] => [x]
  | y :: ys =>
      if x.duration < y.duration then y :: insertByDurationDesc x ys
      else x :: y :: ys

/-- Stable sort of the timing rows, descending by duration.  Rust's
`slice::sort_by` is documented stable; insertion in original order realises
the same (unique) stable descending permutation. -/
def sortByDurationDesc : List ModuleTiming → List ModuleTiming
  | [] => []
  | x :: xs => insertByDurationDesc x (sortByDurationDesc xs)

/-- The rows `timings` renders, in render order. -/
def timingsRows (ms : List Module) : List ModuleTiming :=
  sortByDurationDesc ((timingsFiltered ms).map moduleTiming)

/-- The value `max_name_width` computed by `timings` over its row list. -/
def maxNameWidth (rows : List ModuleTiming) : Nat := listMax (rows.map (·.name_len))

/-- The value `max_duration_width` computed by `timings` over its row list. -/
def maxDurationWidth (rows : List ModuleTiming) : Nat := listMax (rows.map (·.duration_len))

/-- One output line of `timings`' table (`src/print.rs` lines 182-189). -/
def timingLine (max_name_width max_duration_width : Nat) (timing : ModuleTiming) : String :=
  " " ++ timing.name ++ spaces (max_name_width - timing.name_len)
    ++ "  -  " ++ spaces (max_duration_width - timing.duration_len)
    ++ format_duration timing.duration ++ "  -   \"" ++ timing.value ++ "\""

/-! ## The explanation diagnostic renderer -/

/-- The per-module record of `explain` (`struct ModuleInfo`). -/
structure ModuleInfo where
  value : String
  value_len : Nat
  desc : String
  duration : String
deriving DecidableEq, Repr

/-- The constant `DONT_PRINT` from `explain`. -/
def DONT_PRINT : List String := ["line_break"]

/-- The join `Module::get_segments().join("")`: the unstyled concatenation of the
segment texts (`get_segments` lives in `src/module.rs`, external; it
exposes the segments' string values). -/
def moduleSegmentsJoined (module : Module) : String :=
  String.join (module.segments.map (·.text))

/-- The filter-and-project pipeline of `explain`: drop `line_break` and
empty modules, then record the styled value, the grapheme width of
value-plus-duration, the description, and the formatted duration. -/
def explainInfos (ms : List Module) : List ModuleInfo :=
  ((ms.filter (fun module => !DONT_PRINT.contains module.name)).filter
      (fun module => !module.is_empty)).map
    (fun module =>
      { value := module.rendered
        value_len := width_graphemes (moduleSegmentsJoined module)
          + width_graphemes (format_duration module.duration)
        desc := module.description
        duration := format_duration module.duration })

/-- The constant `PADDING_WIDTH` from `explain`. -/
def PADDING_WIDTH : Nat := 11

/-- The value `max_module_width` computed by `explain`. -/
def maxModuleWidth (infos : List ModuleInfo) : Nat := listMax (infos.map (·.value_len))

/-- The description-column width of `explain` (`src/print.rs` lines
228-231): `termWidth` models `term_size::dimensions().map(|(w, _)| w)`. -/
def explainDescWidth (termWidth : Option Nat) (max_module_width : Nat) : Option Nat :=
  termWidth.map (fun width => width - min width (max_module_width + PADDING_WIDTH))

/-- One iteration of `explain`'s grapheme loop (`src/print.rs` lines
246-275).  State: `(current_pos, escaping)`; result: new state and the text
printed during the iteration. -/
def explainStep (desc_width pad : Nat) (st : Nat × Bool) (g : String) :
    (Nat × Bool) × String :=
  let escaping := if g = "\x1B" then true else st.2
  if escaping then
    ((st.1, !(decide (("a" ≤ g ∧ g ≤ "z") ∨ ("A" ≤ g ∧ g ≤ "Z")))), g)
  else
    let current_pos := st.1 + graphemeWidth g
    if g = "\n" ∨ current_pos > desc_width then
      -- trim spaces on linebreak
      if g = " " ∧ desc_width > 1 then ((current_pos, false), "")
      else if g = "\n" then ((0, false), "\n" ++ spaces pad)
      else ((1, false), "\n" ++ spaces pad ++ g)
    else ((current_pos, false), g)

/-- The renderer `explain`'s custom text wrapping: run `explainStep` over the
description's grapheme clusters, starting at position 0 outside an escape,
concatenating everything printed. -/
def explainWrapDesc (desc_width pad : Nat) (gs : List String) : String :=
  (gs.foldl
    (fun (acc : (Nat × Bool) × String) g =>
      let r := explainStep desc_width pad acc.1 g
      (r.1, acc.2 ++ r.2))
    ((0, false), "")).2

/-- The full line `explain` prints for one module: the wrapped form when a
description width is available (`src/print.rs` lines 240-276), the plain
unwrapped form otherwise (lines 278-283). -/
def explainModuleLine (desc_width? : Option Nat) (max_module_width : Nat)
    (info : ModuleInfo) : String :=
  match desc_width? with
  | some desc_width =>
      " \"" ++ info.value ++ "\" (" ++ info.duration ++ ")"
        ++ spaces (max_module_width - info.value_len) ++ "  -  "
        ++ explainWrapDesc desc_width (max_module_width + PADDING_WIDTH)
            (stringGraphemes info.desc)
        ++ "\n"
  | none =>
      " " ++ info.value ++ spaces (max_module_width - info.value_len)
        ++ "  -  " ++ info.desc ++ "\n"

/-- Everything `explain` prints after its header, as one line per module. -/
def explainOutput (termWidth : Option Nat) (ms : List Module) : List String :=
  let infos := explainInfos ms
  let max_module_width := maxModuleWidth infos
  let desc_width := explainDescWidth termWidth max_module_width
  infos.map (explainModuleLine desc_width max_module_width)

/-! ## Helper lemmas -/

/-- Every member of a list is bounded by `listMax`. -/
theorem le_listMax_of_mem {l : List Nat} {x : Nat} (hx : x ∈ l) : x ≤ listMax l := by
  induction l with
  | nil => cases hx
  | cons a tl ih =>
      rcases List.mem_cons.mp hx with h | h
      · subst h; exact Nat.le_max_left _ _
      · exact Nat.le_trans (ih h) (Nat.le_max_right _ _)

/-- Stripping the `custom.` head off `"custom." ++ id` gives back `id`. -/
theorem stripCustomDot_append (id : String) :
    stripCustomDot ("custom." ++ id) = some id := by
  have hdata : ("custom." ++ id).data = "custom.".data ++ id.data := String.data_append ..
  have hlen : ("custom.".data).length = 7 := by decide
  unfold stripCustomDot
  rw [hdata, if_pos (by rw [← hlen, List.take_left]), ← hlen, List.drop_left]

/-- A dotted custom name is never the bare wildcard name `custom`. -/
theorem customDot_ne_custom (id : String) : "custom." ++ id ≠ "custom" := by
  intro h
  have hlen := congrArg String.length h
  rw [String.length_append] at hlen
  have h7 : ("custom." : String).length = 7 := by decide
  have h6 : ("custom" : String).length = 6 := by decide
  rw [h7, h6] at hlen
  omega

/-- Entries on which `f` returns `none` may be filtered away before a
`filterMap`. -/
theorem filterMap_filter_of_none {α β : Type} (f : α → Option β) (p : α → Bool)
    (l : List α) (h : ∀ a ∈ l, p a = false → f a = none) :
    l.filterMap f = (l.filter p).filterMap f := by
  induction l with
  | nil => rfl
  | cons a tl ih =>
      have ih' := ih (fun b hb => h b (List.mem_cons_of_mem a hb))
      by_cases hp : p a = true
      · rw [List.filter_cons_of_pos hp]
        cases hfa : f a <;> simp [List.filterMap_cons, hfa, ih']
      · rw [List.filter_cons_of_neg (by simpa using hp),
          List.filterMap_cons_none (h a (List.mem_cons_self a tl) (by simpa using hp)), ih']

end Starship

namespace Starship

/-- Inserting a row is a permutation of consing it. -/
theorem insertByDurationDesc_perm (x : ModuleTiming) (l : List ModuleTiming) :
    (insertByDurationDesc x l).Perm (x :: l) := by
  induction l with
  | nil => exact List.Perm.refl _
  | cons y ys ih =>
      rw [insertByDurationDesc]
      by_cases h : x.duration < y.duration
      · rw [if_pos h]
        exact (ih.cons y).trans (List.Perm.swap x y ys)
      · rw [if_neg h]

/-- The stable descending sort permutes its input. -/
theorem sortByDurationDesc_perm (l : List ModuleTiming) :
    (sortByDurationDesc l).Perm l := by
  induction l with
  | nil => exact List.Perm.refl _
  | cons x xs ih =>
      exact (insertByDurationDesc_perm x (sortByDurationDesc xs)).trans (ih.cons x)

/-- Inserting into a descending-sorted row list keeps it sorted. -/
theorem insertByDurationDesc_pairwise (x : ModuleTiming) (l : List ModuleTiming)
    (h : l.Pairwise (fun a b => b.duration ≤ a.duration)) :
    (insertByDurationDesc x l).Pairwise (fun a b => b.duration ≤ a.duration) := by
  induction l with
  | nil => simp [insertByDurationDesc]
  | cons y ys ih =>
      rw [List.pairwise_cons] at h
      rw [insertByDurationDesc]
      by_cases hlt : x.duration < y.duration
      · rw [if_pos hlt]
        rw [List.pairwise_cons]
        refine ⟨?_, ih h.2⟩
        intro z hz
        rcases List.mem_cons.mp ((insertByDurationDesc_perm x ys).mem_iff.mp hz) with hz | hz
        · subst hz; exact Nat.le_of_lt hlt
        · exact h.1 z hz
      · rw [if_neg hlt]
        rw [List.pairwise_cons]
        refine ⟨?_, List.pairwise_cons.mpr h⟩
        intro z hz
        rcases List.mem_cons.mp hz with hz | hz
        · subst hz; exact Nat.le_of_not_lt hlt
        · exact Nat.le_trans (h.1 z hz) (Nat.le_of_not_lt hlt)

/-- The rows the sort produces are descending in duration. -/
theorem sortByDurationDesc_pairwise (l : List ModuleTiming) :
    (sortByDurationDesc l).Pairwise (fun a b => b.duration ≤ a.duration) := by
  induction l with
  | nil => simp [sortByDurationDesc]
  | cons x xs ih => exact insertByDurationDesc_pairwise x _ ih

/-- Stability of the insertion, phrased per duration value: the rows of a
fixed duration `d` in the inserted list are `x` first (when it has duration
`d`) followed by those of the base list, in base order. -/
theorem insertByDurationDesc_filter (x : ModuleTiming) (l : List ModuleTiming) (d : Nat) :
    (insertByDurationDesc x l).filter (fun t => t.duration == d) =
      if x.duration = d then x :: l.filter (fun t => t.duration == d)
      else l.filter (fun t => t.duration == d) := by
  induction l with
  | nil =>
      by_cases px : x.duration = d <;>
        simp [insertByDurationDesc, List.filter_cons, px]
  | cons y ys ih =>
      rw [insertByDurationDesc]
      by_cases hlt : x.duration < y.duration
      · rw [if_pos hlt, List.filter_cons, List.filter_cons]
        by_cases px : x.duration = d
        · by_cases py : y.duration = d
          · exact absurd hlt (by rw [px, py]; exact Nat.lt_irrefl d)
          · simp only [ih, if_pos px, py, beq_iff_eq, if_neg py, decide_eq_true_eq]
            simp [py]
        · simp only [ih, if_neg px]
      · rw [if_neg hlt, List.filter_cons]
        by_cases px : x.duration = d
        · simp [px]
        · simp [px]

/-- Stability of the whole sort: for every duration value the rows carrying
it appear in the sorted list exactly in their original order. -/
theorem sortByDurationDesc_filter (l : List ModuleTiming) (d : Nat) :
    (sortByDurationDesc l).filter (fun t => t.duration == d) =
      l.filter (fun t => t.duration == d) := by
  induction l with
  | nil => rfl
  | cons x xs ih =>
      rw [sortByDurationDesc, insertByDurationDesc_filter, List.filter_cons]
      by_cases px : x.duration = d
      · rw [if_pos px, ih]
        simp [px]
      · rw [if_neg px, ih]
        simp [px]

/-- A slot not written by the schedule keeps its old value. -/
theorem runSchedule_not_mem (f : Nat → List Segment) (sched : List Nat)
    (slots : Nat → Option (List Segment)) (i : Nat) (hi : i ∉ sched) :
    runSchedule f sched slots i = slots i := by
  induction sched generalizing slots with
  | nil => rfl
  | cons j rest ih =>
      rw [runSchedule, ih _ (fun h => hi (List.mem_cons_of_mem j h))]
      exact if_neg (fun h => hi (by rw [h]; exact List.mem_cons_self j rest))

/-- A slot whose index completes somewhere in the schedule holds its task's
result afterwards, no matter where in the schedule it ran. -/
theorem runSchedule_mem (f : Nat → List Segment) (sched : List Nat)
    (slots : Nat → Option (List Segment)) (i : Nat) (hi : i ∈ sched) :
    runSchedule f sched slots i = some (f i) := by
  induction sched generalizing slots with
  | nil => cases hi
  | cons j rest ih =>
      rw [runSchedule]
      by_cases hmem : i ∈ rest
      · exact ih _ hmem
      · have hij : i = j := by
          rcases List.mem_cons.mp hi with h | h
          · exact h
          · exact absurd h hmem
        rw [runSchedule_not_mem _ _ _ _ hmem, if_pos hij, hij]

/-- Reading a list back through positional lookups over `range` and
flattening recovers the sequential flat map. -/
theorem flatten_range_map (order : List String) (f : String → List Segment) :
    ((List.range order.length).map
        (fun i => match order.get? i with
          | some m => f m
          | none => [])).flatten = order.flatMap f := by
  induction order with
  | nil => rfl
  | cons a tl ih =>
      rw [List.length_cons, List.range_succ_eq_map, List.map_cons, List.map_map]
      show (f a :: (List.range tl.length).map
          (fun i => match tl.get? i with
            | some m => f m
            | none => [])).flatten = (a :: tl).flatMap f
      rw [List.flatten_cons, ih, List.flatMap_cons]

/-- A parallel flat-map whose schedule completes every task equals the
sequential flat map, whatever the completion order. -/
theorem parFlatMapCollect_eq (order : List String) (f : String → List Segment)
    (schedule : List Nat) (hcomplete : ∀ i, i < order.length → i ∈ schedule) :
    parFlatMapCollect order f schedule = order.flatMap f := by
  unfold parFlatMapCollect
  have hmap : ∀ i ∈ List.range order.length,
      (runSchedule
          (fun i => match order.get? i with
            | some m => f m
            | none => []) schedule (fun _ => none) i).getD [] =
        (match order.get? i with
          | some m => f m
          | none => []) := by
    intro i hi
    rw [runSchedule_mem _ _ _ _ (hcomplete i (List.mem_range.mp hi))]
    exact Option.getD_some
  rw [List.map_congr_left hmap, flatten_range_map]

/-! ## C3: disabled modules contribute nothing -/

/-- C3: a builtin module that is disabled in configuration, and a
`custom.<id>` module whose custom configuration is marked disabled, both
make `handle_module` return the empty module list — hence no segments —
whatever the module collaborators would have produced. -/
theorem disabled_module_yields_nothing (name id : String) (allModules : List String)
    (context : Context) (module_list : List String)
    (hname : name ∈ allModules)
    (hdis : context.isModuleDisabledInConfig name = true)
    (hid : ("custom." ++ id) ∉ allModules)
    (hcdis : context.isCustomModuleDisabledInConfig id = some true) :
    (handle_module name allModules context module_list = [] ∧
      handleModuleSegments name allModules context module_list = []) ∧
    (handle_module ("custom." ++ id) allModules context module_list = [] ∧
      handleModuleSegments ("custom." ++ id) allModules context module_list = []) := by
  have hc1 : allModules.contains name = true := List.elem_iff.mpr hname
  have hc2 : ¬(allModules.contains ("custom." ++ id) = true) :=
    fun h => hid (List.elem_iff.mp h)
  have h1 : handle_module name allModules context module_list = [] := by
    unfold handle_module
    rw [if_pos hc1, hdis]
    rfl
  have h2 : handle_module ("custom." ++ id) allModules context module_list = [] := by
    unfold handle_module
    rw [if_neg hc2, if_neg (customDot_ne_custom id), stripCustomDot_append]
    show (match context.isCustomModuleDisabledInConfig id with
      | some true => ([] : List Module)
      | some false => (context.customModule id).toList
      | none => []) = []
    rw [hcdis]
  exact ⟨⟨h1, by rw [handleModuleSegments, h1]; rfl⟩,
    ⟨h2, by rw [handleModuleSegments, h2]; rfl⟩⟩

/-- Witness for C3 at a concrete context whose collaborators do produce
output. -/
theorem disabled_module_yields_nothing_witness :
    (handle_module "git_branch" ["git_branch"]
        ⟨fun _ => true, fun _ => some true, none,
          fun n => some ⟨n, "", [⟨"seg"⟩], 0, "seg"⟩,
          fun n => some ⟨n, "", [⟨"seg"⟩], 0, "seg"⟩⟩ [] = [] ∧
      handleModuleSegments "git_branch" ["git_branch"]
        ⟨fun _ => true, fun _ => some true, none,
          fun n => some ⟨n, "", [⟨"seg"⟩], 0, "seg"⟩,
          fun n => some ⟨n, "", [⟨"seg"⟩], 0, "seg"⟩⟩ [] = []) ∧
    (handle_module ("custom." ++ "mycmd") ["git_branch"]
        ⟨fun _ => true, fun _ => some true, none,
          fun n => some ⟨n, "", [⟨"seg"⟩], 0, "seg"⟩,
          fun n => some ⟨n, "", [⟨"seg"⟩], 0, "seg"⟩⟩ [] = [] ∧
      handleModuleSegments ("custom." ++ "mycmd") ["git_branch"]
        ⟨fun _ => true, fun _ => some true, none,
          fun n => some ⟨n, "", [⟨"seg"⟩], 0, "seg"⟩,
          fun n => some ⟨n, "", [⟨"seg"⟩], 0, "seg"⟩⟩ [] = []) :=
  disabled_module_yields_nothing "git_branch" "mycmd" ["git_branch"]
    ⟨fun _ => true, fun _ => some true, none,
      fun n => some ⟨n, "", [⟨"seg"⟩], 0, "seg"⟩,
      fun n => some ⟨n, "", [⟨"seg"⟩], 0, "seg"⟩⟩ []
    (by decide) rfl (by decide) rfl

/-! ## C2: explicit custom references are not duplicated by the wildcard -/

/-- C2: when `custom.X` already occurs among the template variables,
`should_add_implicit_custom_module` rejects `X`, and the `custom` wildcard
expansion of `handle_module` is unchanged by deleting `X`'s entries from
the custom-module table — the wildcard emits nothing for `X`, leaving only
the explicit reference. -/
theorem custom_wildcard_skips_explicit (X : String) (config : Toml)
    (allModules : List String) (context : Context) (table : List (String × Toml))
    (module_list : List String)
    (hmem : ("custom." ++ X) ∈ module_list)
    (hnc : "custom" ∉ allModules)
    (hctx : context.getCustomModules = some table) :
    should_add_implicit_custom_module X config module_list = false ∧
    handle_module "custom" allModules context module_list =
      handle_module "custom" allModules
        { context with getCustomModules := some (table.filter (fun p => p.1 != X)) }
        module_list := by
  have hadd : ∀ cfg, should_add_implicit_custom_module X cfg module_list = false := by
    intro cfg
    unfold should_add_implicit_custom_module
    rw [if_pos (List.elem_iff.mpr hmem)]
  have hnc' : ¬(allModules.contains "custom" = true) :=
    fun h => hnc (List.elem_iff.mp h)
  refine ⟨hadd config, ?_⟩
  unfold handle_module
  rw [if_neg hnc', if_pos rfl, if_neg hnc', if_pos rfl, hctx]
  show table.filterMap _ = (table.filter _).filterMap _
  apply filterMap_filter_of_none
  intro p _ hp
  have hpX : p.1 = X := by simpa using hp
  rw [hpX, hadd p.2]
  rfl

/-- Witness for C2 at a one-entry custom table explicitly referenced in the
template. -/
theorem custom_wildcard_skips_explicit_witness :
    should_add_implicit_custom_module "foo" (Toml.bool false) ["custom.foo"] = false ∧
    handle_module "custom" ["git_branch"]
        ⟨fun _ => false, fun _ => some false, some [("foo", Toml.bool false)],
          fun n => some ⟨n, "", [⟨"seg"⟩], 0, "seg"⟩,
          fun n => some ⟨n, "", [⟨"seg"⟩], 0, "seg"⟩⟩ ["custom.foo"] =
      handle_module "custom" ["git_branch"]
        ⟨fun _ => false, fun _ => some false, some (([("foo", Toml.bool false)]).filter (fun p => p.1 != "foo")),
          fun n => some ⟨n, "", [⟨"seg"⟩], 0, "seg"⟩,
          fun n => some ⟨n, "", [⟨"seg"⟩], 0, "seg"⟩⟩ ["custom.foo"] :=
  custom_wildcard_skips_explicit "foo" (Toml.bool false) ["git_branch"]
    ⟨fun _ => false, fun _ => some false, some [("foo", Toml.bool false)],
      fun n => some ⟨n, "", [⟨"seg"⟩], 0, "seg"⟩,
      fun n => some ⟨n, "", [⟨"seg"⟩], 0, "seg"⟩⟩
    [("foo", Toml.bool false)] ["custom.foo"]
    (by decide) (by decide) rfl

/-! ## C5: grapheme-aware display widths -/

/-- C5: `width_graphemes` reports width 2 for the family emoji grapheme
cluster (a single cluster of seven codepoints: four pictographs joined by
three zero width joiners), width 1 for the decomposed letter `U` (U+0055)
followed by the combining diaeresis U+0308 — two codepoints forming a
single cluster — and width 11 for the 11-character ASCII string
`"normal text"`. -/
theorem width_graphemes_test_values :
    (width_graphemes "👩‍👩‍👦‍👦" = 2 ∧
      ("👩‍👩‍👦‍👦" : String).data.length = 7 ∧
      (stringGraphemes "👩‍👩‍👦‍👦").length = 1) ∧
    (width_graphemes "Ü" = 1 ∧
      ("Ü" : String).data.length = 2 ∧
      (stringGraphemes "Ü").length = 1) ∧
    width_graphemes "normal text" = 11 :=
  ⟨⟨by decide, by decide, by decide⟩, ⟨by decide, by decide, by decide⟩, by decide⟩

/-! ## C4: tcsh post-processing -/

/-- C4: when the format parses and `TERM` is not `dumb`, `get_prompt`
post-processes the fully styled buffer with the tcsh substitution exactly
when the shell is tcsh, and leaves it untouched for every other dialect;
the substitution turns `a!b\nc` into `a\!b \nc`. -/
theorem tcsh_escaping (c : PromptContext) (hterm : c.termEnv ≠ some "dumb")
    (hfmt : c.formatParses = true) :
    (get_prompt c).1 =
      (let styled := (if c.shell = Shell.fish then "\x1b[J" else "")
          ++ (if c.add_newline then "\n" else "") ++ c.rendered
       if c.shell = Shell.tcsh then tcshPostprocess styled else styled) ∧
    tcshPostprocess "a!b\nc" = "a\\!b \\nc" := by
  constructor
  · simp only [get_prompt, hfmt, if_neg hterm, Bool.not_true, Bool.false_eq_true, if_false]
  · decide

/-- Witness for C4 at a concrete tcsh context. -/
theorem tcsh_escaping_witness :
    (get_prompt ⟨none, Shell.tcsh, false, true, "a!b\nc"⟩).1 =
      (let styled := (if Shell.tcsh = Shell.fish then "\x1b[J" else "")
          ++ (if false then "\n" else "") ++ "a!b\nc"
       if Shell.tcsh = Shell.tcsh then tcshPostprocess styled else styled) ∧
    tcshPostprocess "a!b\nc" = "a\\!b \\nc" :=
  tcsh_escaping ⟨none, Shell.tcsh, false, true, "a!b\nc"⟩ (by decide) rfl

/-! ## C9: fallback on a format parse failure -/

/-- C9 counterexample: under `TERM=dumb` the format parser is never
consulted, so a context whose format fails to parse yields the dumb-term
banner, not the buffer followed by the single `>` marker. -/
theorem format_error_fallback_dumb_counterexample :
    (get_prompt ⟨some "dumb", Shell.bash, false, false, ""⟩).1 =
      "Starship disabled due to TERM=dumb > " ∧
    (get_prompt ⟨some "dumb", Shell.bash, false, false, ""⟩).1 ≠ ">" :=
  ⟨rfl, by decide⟩

/-- C9 (amended with `TERM ≠ dumb`): when the configured format fails to
parse, `get_prompt` returns the buffer so far (the fish screen-clear
prefix, else empty) with the single marker `>` appended, logs the parse
error, and the output is not empty. -/
theorem format_error_fallback (c : PromptContext) (hterm : c.termEnv ≠ some "dumb")
    (hfmt : c.formatParses = false) :
    get_prompt c =
      ((if c.shell = Shell.fish then "\x1b[J" else "") ++ ">", ["Error parsing `format`"]) ∧
    (get_prompt c).1 ≠ "" := by
  have h1 : get_prompt c =
      ((if c.shell = Shell.fish then "\x1b[J" else "") ++ ">", ["Error parsing `format`"]) := by
    simp only [get_prompt, hfmt, if_neg hterm, Bool.not_false, if_true]
  refine ⟨h1, ?_⟩
  rw [h1]
  by_cases h : c.shell = Shell.fish
  · rw [if_pos h]; decide
  · rw [if_neg h]; decide

/-- Witness for C9's amended theorem at a concrete bash context. -/
theorem format_error_fallback_witness :
    get_prompt ⟨none, Shell.bash, true, false, "x"⟩ =
      ((if Shell.bash = Shell.fish then "\x1b[J" else "") ++ ">", ["Error parsing `format`"]) ∧
    (get_prompt ⟨none, Shell.bash, true, false, "x"⟩).1 ≠ "" :=
  format_error_fallback ⟨none, Shell.bash, true, false, "x"⟩ (by decide) rfl

/-! ## C8: explanation renderer with and without a terminal width -/

/-- C8: with no terminal width the description-column width is absent and
every module is rendered as the plain unwrapped single line (total, hence
no panic in the model); with a width `w` available the description column
is `w` minus (value-column width plus 11), floored at zero by saturating
subtraction. -/
theorem explain_desc_width_spec :
    (∀ mw : Nat, explainDescWidth none mw = none) ∧
    (∀ w mw : Nat, explainDescWidth (some w) mw = some (w - (mw + PADDING_WIDTH))) ∧
    (∀ ms : List Module,
      explainOutput none ms =
        (explainInfos ms).map (fun info =>
          " " ++ info.value ++ spaces (maxModuleWidth (explainInfos ms) - info.value_len)
            ++ "  -  " ++ info.desc ++ "\n")) := by
  refine ⟨fun mw => rfl, fun w mw => ?_, fun ms => rfl⟩
  have h : explainDescWidth (some w) mw = some (w - min w (mw + PADDING_WIDTH)) := rfl
  rw [h]
  congr 1
  generalize mw + PADDING_WIDTH = k
  omega

/-! ## C1: the parallel wildcard expansion refines sequential evaluation -/

/-- C1: for every context, module set and completion schedule that finishes
every dispatched builtin, the segment sequence produced by `get_prompt`'s
parallel `$all` expansion — all builtins of `PROMPT_ORDER` dispatched
concurrently and collected by original position — equals the segment
sequence of `compute_modules`' strictly sequential evaluation of the same
builtins in `PROMPT_ORDER` order: the output order is independent of the
completion order. -/
theorem parallel_all_matches_sequential (promptOrder allModules : List String)
    (context : Context) (module_list : List String) (schedule : List Nat)
    (hcomplete : ∀ i, i < promptOrder.length → i ∈ schedule) :
    getPromptAllSegments promptOrder allModules context module_list schedule =
      (computeModulesAll promptOrder allModules context module_list).flatMap
        (·.segments) := by
  unfold getPromptAllSegments computeModulesAll
  rw [parFlatMapCollect_eq _ _ _ hcomplete]
  simp only [handleModuleSegments, List.flatMap_assoc]

/-- Witness for C1: two builtins completing in reversed order still yield
the sequential segment sequence. -/
theorem parallel_all_matches_sequential_witness :
    getPromptAllSegments ["aws", "git_branch"] ["aws", "git_branch"]
        ⟨fun _ => false, fun _ => none, none,
          fun n => some ⟨n, "", [⟨n⟩], 0, n⟩, fun _ => none⟩ [] [1, 0] =
      (computeModulesAll ["aws", "git_branch"] ["aws", "git_branch"]
          ⟨fun _ => false, fun _ => none, none,
            fun n => some ⟨n, "", [⟨n⟩], 0, n⟩, fun _ => none⟩ []).flatMap
        (·.segments) :=
  parallel_all_matches_sequential ["aws", "git_branch"] ["aws", "git_branch"]
    ⟨fun _ => false, fun _ => none, none,
      fun n => some ⟨n, "", [⟨n⟩], 0, n⟩, fun _ => none⟩ [] [1, 0]
    (by decide)

/-! ## C7: the timing table filter and its stable descending sort -/

/-- C7: the timing table keeps a module exactly when its segment list is
nonempty or its duration is at least one millisecond, and renders the kept
rows as a permutation of the filtered list that is descending in duration
and stable: rows of equal duration stay in their original relative
order. -/
theorem timings_table_spec (ms : List Module) :
    (∀ m : Module, m ∈ timingsFiltered ms ↔
      m ∈ ms ∧ (m.segments ≠ [] ∨ 1 ≤ durationMillis m.duration)) ∧
    (timingsRows ms).Perm ((timingsFiltered ms).map moduleTiming) ∧
    (timingsRows ms).Pairwise (fun a b => b.duration ≤ a.duration) ∧
    (∀ d : Nat, (timingsRows ms).filter (fun t => t.duration == d) =
      ((timingsFiltered ms).map moduleTiming).filter (fun t => t.duration == d)) := by
  refine ⟨?_, sortByDurationDesc_perm _, sortByDurationDesc_pairwise _,
    fun d => sortByDurationDesc_filter _ d⟩
  intro m
  have hbridge : ∀ l : List Segment, l.isEmpty = false ↔ l ≠ [] := fun l => by
    cases l <;> simp
  simp only [timingsFiltered, List.mem_filter, Module.is_empty, Bool.or_eq_true,
    Bool.not_eq_eq_eq_not, Bool.not_true, decide_eq_true_eq, gt_iff_lt]
  constructor
  · rintro ⟨hm, h | h⟩
    · exact ⟨hm, Or.inl ((hbridge _).mp h)⟩
    · exact ⟨hm, Or.inr h⟩
  · rintro ⟨hm, h | h⟩
    · exact ⟨hm, Or.inl ((hbridge _).mpr h)⟩
    · exact ⟨hm, Or.inr h⟩

/-! ## C10: the column paddings never underflow -/

/-- C10: in both diagnostic renderers every width that is subtracted from a
column maximum belongs to the list the maximum was taken over, so the
padding subtractions `max_name_width - name_len`,
`max_duration_width - duration_len` and `max_module_width - value_len`
never underflow — for every module set, each renderer independently
(including sets where the other renderer's list is empty). -/
theorem padding_subtractions_safe (ms : List Module) :
    (∀ t ∈ timingsRows ms,
      t.name_len ≤ maxNameWidth (timingsRows ms) ∧
      t.duration_len ≤ maxDurationWidth (timingsRows ms)) ∧
    (∀ info ∈ explainInfos ms,
      info.value_len ≤ maxModuleWidth (explainInfos ms)) :=
  ⟨fun _ ht =>
    ⟨le_listMax_of_mem (List.mem_map_of_mem (·.name_len) ht),
      le_listMax_of_mem (List.mem_map_of_mem (·.duration_len) ht)⟩,
    fun _ hinfo => le_listMax_of_mem (List.mem_map_of_mem (·.value_len) hinfo)⟩

/-- Witness for C10: the timings half on a segmentless 5 ms module that the
explain list drops, the explain half on a module with output. -/
theorem padding_subtractions_safe_witness :
    ((moduleTiming ⟨"cmd_duration", "t", [], 5000000, ""⟩).name_len ≤
      maxNameWidth (timingsRows
        [⟨"cmd_duration", "t", [], 5000000, ""⟩,
         ⟨"aws", "a", [⟨"eu"⟩], 2000000, "eu"⟩]) ∧
    (moduleTiming ⟨"cmd_duration", "t", [], 5000000, ""⟩).duration_len ≤
      maxDurationWidth (timingsRows
        [⟨"cmd_duration", "t", [], 5000000, ""⟩,
         ⟨"aws", "a", [⟨"eu"⟩], 2000000, "eu"⟩])) ∧
    ({ value := "eu", value_len := width_graphemes "eu" + width_graphemes "2ms",
       desc := "a", duration := "2ms" } : ModuleInfo).value_len ≤
      maxModuleWidth (explainInfos
        [⟨"cmd_duration", "t", [], 5000000, ""⟩,
         ⟨"aws", "a", [⟨"eu"⟩], 2000000, "eu"⟩]) :=
  ⟨(padding_subtractions_safe
      [⟨"cmd_duration", "t", [], 5000000, ""⟩,
       ⟨"aws", "a", [⟨"eu"⟩], 2000000, "eu"⟩]).1
    (moduleTiming ⟨"cmd_duration", "t", [], 5000000, ""⟩) (by decide),
   (padding_subtractions_safe
      [⟨"cmd_duration", "t", [], 5000000, ""⟩,
       ⟨"aws", "a", [⟨"eu"⟩], 2000000, "eu"⟩]).2
    { value := "eu", value_len := width_graphemes "eu" + width_graphemes "2ms",
      desc := "a", duration := "2ms" } (by decide)⟩

/-! ## C6: dropping a boundary space in the explanation word-wrap -/

/-- C6 counterexample: with wrap width 5 the space of `"abc def"` lands at
running position 4, inside the budget, so it is emitted; the wrap triggers
only at `e`, and the output is `abc d` / `ef` — not a break before `def`
with the space dropped. -/
theorem explain_wrap_width5_counterexample :
    explainWrapDesc 5 11 (stringGraphemes "abc def") = "abc d\n           ef" ∧
    explainWrapDesc 5 11 (stringGraphemes "abc def") ≠ "abc\n           def" :=
  ⟨by decide, by decide⟩

/-- C6 (amended: the space of `"abc def"` sits at the wrap boundary at
width 3, not 5): a plain-space grapheme whose width pushes the running
position past a wrap width greater than 1 is suppressed — the step emits
nothing; consequently at width 3 the description `"abc def"` breaks before
`def` with the boundary space dropped. -/
theorem explain_wrap_space_suppressed (pad desc_width pos : Nat)
    (hwide : 1 < desc_width) (hover : desc_width < pos + 1) :
    explainStep desc_width pad (pos, false) " " = ((pos + 1, false), "") ∧
    explainWrapDesc 3 11 (stringGraphemes "abc def") = "abc\n           def" := by
  constructor
  · have hesc : (if (" " : String) = "\x1B" then true else false) = false := by decide
    have hw : graphemeWidth " " = 1 := by decide
    simp only [explainStep, hesc, Bool.false_eq_true, if_false, hw]
    rw [if_pos (Or.inr (by omega : pos + 1 > desc_width))]
    exact if_pos ⟨trivial, hwide⟩
  · decide

/-- Witness for C6's amended theorem at width 3 and position 3. -/
theorem explain_wrap_space_suppressed_witness :
    explainStep 3 11 (3, false) " " = ((3 + 1, false), "") ∧
    explainWrapDesc 3 11 (stringGraphemes "abc def") = "abc\n           def" :=
  explain_wrap_space_suppressed 11 3 3 (by decide) (by decide)

end Starship
